import Mathlib

/-!
Verification of the text-formatting pipeline and rate limiter of the
starknet-founders-bot repository, as implemented in `src/bot/utils.py`
(`RateLimiter`, `escape_md_v2`, `split_into_chunks`) and
`src/bot/agents.py` (`AIAgent.format_response` and its helper passes).

Strings are modelled as `List Char` internally, with `String` wrappers at
the boundary.  Each Python regular-expression substitution is translated
into an explicit character-list scanner that reproduces the semantics of
the concrete pattern (left-to-right scanning, greedy repetition with the
backtracking behaviour the pattern admits).
-/

set_option maxRecDepth 10000

/-! ## Basic character utilities -/

/-- ASCII whitespace recognised by Python `\s` and `str.strip()`:
space, tab, newline, carriage return, vertical tab, form feed. -/
def isWsChar (c : Char) : Bool :=
  c = ' ' || c = '\t' || c = '\n' || c = '\r' || c = Char.ofNat 11 || c = Char.ofNat 12

def isDigitChar (c : Char) : Bool := c.isDigit

/-- Python `str.strip()` (left side). -/
def lstripWs (l : List Char) : List Char := l.dropWhile isWsChar

/-- Python `str.strip()` (right side). -/
def rstripWs (l : List Char) : List Char := (l.reverse.dropWhile isWsChar).reverse

/-- Python `str.strip()`. -/
def stripWs (l : List Char) : List Char := rstripWs (lstripWs l)

/-- Python `needle in hay` substring test. -/
def containsSub (needle : List Char) : List Char → Bool
  | [] => needle.isEmpty
  | c :: rest => needle.isPrefixOf (c :: rest) || containsSub needle rest

/-- Python `str.lower()` (ASCII letters). -/
def toLowerL (l : List Char) : List Char := l.map Char.toLower

/-- Python `content.split('\n')`. -/
def splitOnNl : List Char → List (List Char)
  | [] => [[]]
  | c :: rest =>
    let r := splitOnNl rest
    if c = '\n' then [] :: r
    else
      match r with
      | [] => [[c]]
      | l :: ls => (c :: l) :: ls

/-- Python `'\n'.join(lines)`. -/
def joinNl (ls : List (List Char)) : List Char := List.intercalate ['\n'] ls

/-! ## RateLimiter (`src/bot/utils.py`)

Timestamps are modelled as natural numbers of seconds; `window` is the
window length in seconds (the Python constructor receives minutes and
stores `timedelta(minutes=window_minutes)`). -/

structure RateLimiter where
  max_requests : Nat
  window : Nat
  requests : String → List Nat

/-- The purge at the top of `is_allowed`: keep timestamps with
`now - req_time < window`. -/
def purgeOld (window : Nat) (now : Nat) (l : List Nat) : List Nat :=
  l.filter (fun t => now - t < window)

def rateLimitMessage (minutes : Nat) : String :=
  "Rate limit reached. Please wait " ++ toString minutes ++ " minutes."

/-- `RateLimiter.is_allowed`, state-passing.  Returns `((allowed, message),
new_state)`.  The Python code indexes `self.requests[user_id][0]` on the
reject path; with `max_requests ≥ 1` the purged list is then non-empty, and
we read its head with default 0 (the Python code would raise `IndexError`
only in the degenerate configuration `max_requests = 0`). -/
def is_allowed (rl : RateLimiter) (user : String) (now : Nat) :
    (Bool × String) × RateLimiter :=
  if rl.max_requests ≤ (purgeOld rl.window now (rl.requests user)).length then
    (((false : Bool),
        rateLimitMessage
          ((rl.window - (now - (purgeOld rl.window now (rl.requests user)).headD 0)) / 60)),
      { rl with
        requests := fun v =>
          if v = user then purgeOld rl.window now (rl.requests user) else rl.requests v })
  else
    (((true : Bool), ""),
      { rl with
        requests := fun v =>
          if v = user then purgeOld rl.window now (rl.requests user) ++ [now]
          else rl.requests v })

/-- A fresh limiter (`RateLimiter.__init__`): empty request map. -/
def initRateLimiter (maxReq window : Nat) : RateLimiter :=
  { max_requests := maxReq, window := window, requests := fun _ => [] }

/-- Fold a sequence of `(user, now)` calls over a fresh limiter. -/
def runCalls (maxReq window : Nat) (calls : List (String × Nat)) : RateLimiter :=
  calls.foldl (fun rl c => (is_allowed rl c.1 c.2).2) (initRateLimiter maxReq window)

/-! ## escape_md_v2 (`src/bot/utils.py`) -/

/-- The reserved set `_*[]()~`>#+-=|{}.!` (backslash handled separately). -/
def isSpecialMd (c : Char) : Bool :=
  "_*[]()~`>#+-=|{}.!".data.contains c

/-- First phase: `text.replace("\\", "\\\\")`. -/
def escapeBackslashes : List Char → List Char
  | [] => []
  | c :: rest => (if c = '\\' then ['\\', '\\'] else [c]) ++ escapeBackslashes rest

/-- Second phase: prefix every reserved character with a backslash. -/
def escapeSpecials : List Char → List Char
  | [] => []
  | c :: rest => (if isSpecialMd c then ['\\', c] else [c]) ++ escapeSpecials rest

def escape_md_v2 (text : String) : String :=
  String.mk (escapeSpecials (escapeBackslashes text.data))

/-- Inverse direction used by the round-trip claim: remove every
backslash-escape, mapping each two-character sequence `\c` back to `c`,
left to right. -/
def unescapeMdChars : List Char → List Char
  | [] => []
  | [c] => [c]
  | c :: d :: rest =>
    if c = '\\' then d :: unescapeMdChars rest
    else c :: unescapeMdChars (d :: rest)

def unescapeMd (text : String) : String := String.mk (unescapeMdChars text.data)

/-! ## split_into_chunks (`src/bot/utils.py`) -/

/-- `remaining.rfind("\n", 0, limit)`: index of the last `'\n'` at a
position `< limit` (and within the list), or `none`. -/
def lastNlBefore : List Char → Nat → Option Nat
  | [], _ => none
  | _ :: _, 0 => none
  | c :: cs, n + 1 =>
    match lastNlBefore cs n with
    | some i => some (i + 1)
    | none => if c = '\n' then some 0 else none

/-- The split-position computation: fall back to a hard split at `limit`
when no newline is found or the newline sits before half the limit
(`split_at == -1 or split_at < limit * 0.5`). -/
def chunkSplitAt (remaining : List Char) (limit : Nat) : Nat :=
  match lastNlBefore remaining limit with
  | none => limit
  | some i => if 2 * i < limit then limit else i

/-- One iteration of the `while` loop when `len(remaining) > limit`:
returns `(chunk, new_remaining)` with
`chunk = remaining[:split_at]` and
`new_remaining = remaining[split_at:].lstrip("\n")`. -/
def splitStep (remaining : List Char) (limit : Nat) : List Char × List Char :=
  (remaining.take (chunkSplitAt remaining limit),
   (remaining.drop (chunkSplitAt remaining limit)).dropWhile (fun c => c = '\n'))

/-- The full loop, with explicit fuel; `none` means the fuel ran out
before the loop finished (the Python loop does not terminate when
`limit = 0` and the remainder has no leading newline, so no fuel bound
works there). -/
def splitChunksFuel : Nat → List Char → Nat → Option (List (List Char))
  | 0, _, _ => none
  | fuel + 1, remaining, limit =>
    if remaining = [] then some []
    else if remaining.length ≤ limit then some [remaining]
    else
      match splitChunksFuel fuel (splitStep remaining limit).2 limit with
      | some rest => some ((splitStep remaining limit).1 :: rest)
      | none => none

/-- `split_into_chunks`; for `limit ≥ 1` the fuel `text.length + 1` always
suffices (proved below), so the `none` fallback is never taken there. -/
def split_into_chunks (text : String) (limit : Nat) : List String :=
  match splitChunksFuel (text.length + 1) text.data limit with
  | some cs => cs.map fun c => String.mk c
  | none => []

/-- Interleave chunks with separator strings: used to state the
reconstruction property of the chunker. -/
def joinWithSeps : List (List Char) → List (List Char) → List Char
  | [], _ => []
  | c :: cs, [] => c ++ joinWithSeps cs []
  | c :: cs, s :: ss => c ++ s ++ joinWithSeps cs ss

/-- The Python loop body at `remaining = "a"`, `limit = 0` leaves the
remainder unchanged, so the loop never finishes: for every fuel bound the
fuel runs out. -/
def SplitDivergesOnAZero : Prop :=
  ∀ fuel : Nat, splitChunksFuel fuel ['a'] 0 = none

/-! ## Supporting lemmas -/

theorem escapeSpecials_append (a b : List Char) :
    escapeSpecials (a ++ b) = escapeSpecials a ++ escapeSpecials b := by
  induction a with
  | nil => rfl
  | cons c rest ih => simp [escapeSpecials, ih]

theorem unescape_cons_ne (c : Char) (l : List Char) (h : ¬ c = '\\') :
    unescapeMdChars (c :: l) = c :: unescapeMdChars l := by
  cases l with
  | nil => rfl
  | cons d rest => simp [unescapeMdChars, h]

theorem unescape_bs (x : Char) (l : List Char) :
    unescapeMdChars ('\\' :: x :: l) = x :: unescapeMdChars l := by
  simp [unescapeMdChars]

theorem unescape_escape_chars (cs : List Char) :
    unescapeMdChars (escapeSpecials (escapeBackslashes cs)) = cs := by
  induction cs with
  | nil => rfl
  | cons c rest ih =>
    by_cases hbs : c = '\\'
    · subst hbs
      rw [show escapeBackslashes ('\\' :: rest) = ['\\', '\\'] ++ escapeBackslashes rest from by
        simp [escapeBackslashes]]
      rw [escapeSpecials_append,
        show escapeSpecials ['\\', '\\'] = ['\\', '\\'] from by decide]
      show unescapeMdChars ('\\' :: '\\' :: escapeSpecials (escapeBackslashes rest)) = _
      rw [unescape_bs, ih]
    · rw [show escapeBackslashes (c :: rest) = [c] ++ escapeBackslashes rest from by
        simp [escapeBackslashes, hbs]]
      rw [escapeSpecials_append]
      by_cases hsp : isSpecialMd c = true
      · rw [show escapeSpecials [c] = ['\\', c] from by simp [escapeSpecials, hsp]]
        show unescapeMdChars ('\\' :: c :: escapeSpecials (escapeBackslashes rest)) = _
        rw [unescape_bs, ih]
      · rw [show escapeSpecials [c] = [c] from by simp [escapeSpecials, hsp]]
        show unescapeMdChars (c :: escapeSpecials (escapeBackslashes rest)) = _
        rw [unescape_cons_ne c _ hbs, ih]

theorem lastNlBefore_lt (cs : List Char) : ∀ n i, lastNlBefore cs n = some i → i < n := by
  induction cs with
  | nil => intro n i h; simp [lastNlBefore] at h
  | cons c rest ih =>
    intro n i h
    cases n with
    | zero => simp [lastNlBefore] at h
    | succ m =>
      rw [lastNlBefore] at h
      cases hr : lastNlBefore rest m with
      | some j =>
        rw [hr] at h
        have hj := ih m j hr
        simp at h
        omega
      | none =>
        rw [hr] at h
        by_cases hc : c = '\n'
        · rw [if_pos hc] at h
          simp at h
          omega
        · rw [if_neg hc] at h
          simp at h

theorem chunkSplitAt_le (cs : List Char) (limit : Nat) : chunkSplitAt cs limit ≤ limit := by
  unfold chunkSplitAt
  cases hln : lastNlBefore cs limit with
  | none => exact Nat.le_refl _
  | some i =>
    have := lastNlBefore_lt cs limit i hln
    show (if 2 * i < limit then limit else i) ≤ limit
    by_cases h2 : 2 * i < limit
    · rw [if_pos h2]
    · rw [if_neg h2]; omega

theorem chunkSplitAt_pos (cs : List Char) (limit : Nat) (h : 1 ≤ limit) :
    1 ≤ chunkSplitAt cs limit := by
  unfold chunkSplitAt
  cases hln : lastNlBefore cs limit with
  | none => exact h
  | some i =>
    show 1 ≤ (if 2 * i < limit then limit else i)
    by_cases h2 : 2 * i < limit
    · rw [if_pos h2]; exact h
    · rw [if_neg h2]; omega

theorem length_dropWhile_le_gen {α : Type} (p : α → Bool) (l : List α) :
    (l.dropWhile p).length ≤ l.length := by
  induction l with
  | nil => simp [List.dropWhile]
  | cons c rest ih =>
    rw [List.dropWhile]
    by_cases hp : p c
    · rw [hp]; simpa using Nat.le_succ_of_le ih
    · simp [hp]

theorem splitStep_progress (limit : Nat) (h : 1 ≤ limit) (rem : List Char)
    (hlen : limit < rem.length) : (splitStep rem limit).2.length < rem.length := by
  have hsa1 : 1 ≤ chunkSplitAt rem limit := chunkSplitAt_pos rem limit h
  have hsa2 : chunkSplitAt rem limit ≤ limit := chunkSplitAt_le rem limit
  have h1 : ((rem.drop (chunkSplitAt rem limit)).dropWhile (fun c => c = '\n')).length
      ≤ (rem.drop (chunkSplitAt rem limit)).length := length_dropWhile_le_gen _ _
  have h2 : (rem.drop (chunkSplitAt rem limit)).length = rem.length - chunkSplitAt rem limit :=
    List.length_drop _ _
  simp only [splitStep]
  omega

theorem splitChunksFuel_some (limit : Nat) (h : 1 ≤ limit) :
    ∀ fuel rem, rem.length < fuel → (splitChunksFuel fuel rem limit).isSome = true := by
  intro fuel
  induction fuel with
  | zero => intro rem h0; omega
  | succ f ih =>
    intro rem hlt
    rw [splitChunksFuel]
    by_cases h1 : rem = []
    · simp [h1]
    · rw [if_neg h1]
      by_cases h2 : rem.length ≤ limit
      · simp [h2]
      · rw [if_neg h2]
        have hp : (splitStep rem limit).2.length < rem.length :=
          splitStep_progress limit h rem (by omega)
        have hrec := ih (splitStep rem limit).2 (by omega)
        cases hmatch : splitChunksFuel f (splitStep rem limit).2 limit with
        | none => rw [hmatch] at hrec; simp at hrec
        | some rest => simp

theorem is_allowed_preserves_inv (rl : RateLimiter) (u : String) (now : Nat)
    (hinv : ∀ v, ((rl.requests v).length ≤ rl.max_requests)) :
    (∀ v, (((is_allowed rl u now).2.requests v).length ≤ (is_allowed rl u now).2.max_requests)) ∧
      (is_allowed rl u now).2.max_requests = rl.max_requests := by
  unfold is_allowed
  by_cases hc : rl.max_requests ≤ (purgeOld rl.window now (rl.requests u)).length
  · rw [if_pos hc]
    refine ⟨?_, rfl⟩
    intro v
    dsimp only
    by_cases hv : v = u
    · rw [if_pos hv]
      have h1 : (purgeOld rl.window now (rl.requests u)).length ≤ (rl.requests u).length :=
        List.length_filter_le _ _
      have h2 := hinv u
      omega
    · rw [if_neg hv]; exact hinv v
  · rw [if_neg hc]
    refine ⟨?_, rfl⟩
    intro v
    dsimp only
    by_cases hv : v = u
    · rw [if_pos hv, List.length_append]
      simp only [List.length_singleton]
      omega
    · rw [if_neg hv]; exact hinv v

theorem foldl_calls_inv (calls : List (String × Nat)) :
    ∀ rl : RateLimiter, (∀ v, ((rl.requests v).length ≤ rl.max_requests)) →
      (∀ v, (((calls.foldl (fun rl c => (is_allowed rl c.1 c.2).2) rl).requests v).length ≤
          (calls.foldl (fun rl c => (is_allowed rl c.1 c.2).2) rl).max_requests)) ∧
      (calls.foldl (fun rl c => (is_allowed rl c.1 c.2).2) rl).max_requests = rl.max_requests := by
  induction calls with
  | nil => intro rl h; exact ⟨h, rfl⟩
  | cons c rest ih =>
    intro rl h
    rw [List.foldl_cons]
    have h1 := is_allowed_preserves_inv rl c.1 c.2 h
    have h2 := ih _ h1.1
    exact ⟨h2.1, h2.2.trans h1.2⟩

/-- C8: for every configuration and every sequence of `is_allowed` calls on a
fresh limiter, the timestamp list stored for any user never exceeds
`max_requests` entries: a timestamp is appended only when the purged count is
strictly below the maximum, so each per-user list has length at most the
maximum after every call. -/
theorem rate_limiter_never_exceeds_max (maxReq window : Nat)
    (calls : List (String × Nat)) (user : String) :
    ((runCalls maxReq window calls).requests user).length ≤ maxReq := by
  have h0 : ∀ v, (((initRateLimiter maxReq window).requests v).length ≤
      (initRateLimiter maxReq window).max_requests) := by
    intro v; simp [initRateLimiter]
  have h := foldl_calls_inv calls (initRateLimiter maxReq window) h0
  unfold runCalls
  have h1 := h.1 user
  have h2 : (initRateLimiter maxReq window).max_requests = maxReq := rfl
  omega

/-- C7: with `max_requests = 2` and a 60-second window, three calls for the
same user at seconds 0, 10, 20 return allowed = true, true, false, and a
fourth call at second 90 (after the window has elapsed) returns allowed =
true. -/
theorem rate_limiter_two_then_reject :
    ((is_allowed (initRateLimiter 2 60) "u" 0).1.1 = true) ∧
      ((is_allowed (is_allowed (initRateLimiter 2 60) "u" 0).2 "u" 10).1.1 = true) ∧
      ((is_allowed (is_allowed (is_allowed (initRateLimiter 2 60) "u" 0).2 "u" 10).2
          "u" 20).1.1 = false) ∧
      ((is_allowed (is_allowed (is_allowed (is_allowed (initRateLimiter 2 60) "u" 0).2
          "u" 10).2 "u" 20).2 "u" 90).1.1 = true) := by
  decide

/-- C10: whenever `is_allowed` returns `false` for a user, the new state
stores exactly the purged timestamp list for that user (nothing is appended)
and every other user's entry is unchanged. -/
theorem rejected_call_is_pure_purge (rl : RateLimiter) (u : String) (now : Nat)
    (h : (is_allowed rl u now).1.1 = false) :
    (is_allowed rl u now).2.requests u = purgeOld rl.window now (rl.requests u) ∧
      ∀ v, ¬ v = u → (is_allowed rl u now).2.requests v = rl.requests v := by
  unfold is_allowed at h ⊢
  by_cases hc : rl.max_requests ≤ (purgeOld rl.window now (rl.requests u)).length
  · rw [if_pos hc]
    constructor
    · dsimp only; rw [if_pos rfl]
    · intro v hv; dsimp only; rw [if_neg hv]
  · rw [if_neg hc] at h
    simp at h

/-- A concrete limiter state in which the next call for user `"u"` is
rejected (used as the witness input for the frame property). -/
def rlRejecting : RateLimiter :=
  { max_requests := 1, window := 3600, requests := fun v => if v = "u" then [5] else [] }

theorem rejected_call_is_pure_purge_witness :
    ((is_allowed rlRejecting "u" 10).1.1 = false) ∧
      (is_allowed rlRejecting "u" 10).2.requests "u" =
        purgeOld rlRejecting.window 10 (rlRejecting.requests "u") :=
  ⟨by decide, (rejected_call_is_pure_purge rlRejecting "u" 10 (by decide)).1⟩

/-- C3: removing every backslash-escape from `escape_md_v2 text` (mapping
each two-character sequence backslash-then-c back to c, left to right)
recovers the original text exactly. -/
theorem escape_md_v2_roundtrip (text : String) : unescapeMd (escape_md_v2 text) = text := by
  cases text with
  | mk data => exact congrArg String.mk (unescape_escape_chars data)

/-- C4: whenever the chunking loop of `split_into_chunks` returns a result
list (for any fuel bound), every chunk has length at most `limit`, and the
list is non-empty whenever the input text is non-empty.  (For `limit = 0` the
Python loop need not terminate; the claim is about the returned list, so it
is conditioned on the loop finishing.) -/
theorem split_chunks_len_le (fuel : Nat) (cs : List Char) (limit : Nat)
    (res : List (List Char)) (h : splitChunksFuel fuel cs limit = some res) :
    (∀ c ∈ res, c.length ≤ limit) ∧ (¬ cs = [] → ¬ res = []) := by
  induction fuel generalizing cs res with
  | zero => simp [splitChunksFuel] at h
  | succ f ih =>
    rw [splitChunksFuel] at h
    by_cases h1 : cs = []
    · subst h1
      rw [if_pos rfl] at h
      obtain rfl := Option.some.inj h
      simp
    · rw [if_neg h1] at h
      by_cases h2 : cs.length ≤ limit
      · rw [if_pos h2] at h
        obtain rfl := Option.some.inj h
        refine ⟨?_, fun _ => by simp⟩
        intro c hc
        rw [List.mem_singleton] at hc
        exact hc ▸ h2
      · rw [if_neg h2] at h
        cases hmatch : splitChunksFuel f (splitStep cs limit).2 limit with
        | none => rw [hmatch] at h; simp at h
        | some rest =>
          rw [hmatch] at h
          obtain rfl := Option.some.inj h
          obtain ⟨ih1, _⟩ := ih (splitStep cs limit).2 rest hmatch
          refine ⟨?_, fun _ => by simp⟩
          intro c hc
          rcases List.mem_cons.mp hc with rfl | hc2
          · have hle := chunkSplitAt_le cs limit
            simp only [splitStep, List.length_take]
            omega
          · exact ih1 c hc2

theorem split_chunks_len_le_witness :
    (splitChunksFuel 12 "abcdefgh\nij".data 8 = some ["abcdefgh".data, "ij".data]) ∧
      ((∀ c ∈ ["abcdefgh".data, "ij".data], List.length c ≤ 8) ∧
        (¬ "abcdefgh\nij".data = [] → ¬ (["abcdefgh".data, "ij".data] :
          List (List Char)) = [])) :=
  ⟨by decide, split_chunks_len_le 12 "abcdefgh\nij".data 8 _ (by decide)⟩

/-- C5 (counterexample): chunking `"ab\n\n\ncd"` with limit 4 produces
`["ab\n", "cd"]`; two newline characters are lost at the single split
boundary, so re-inserting at most one newline there cannot reconstruct the
original text. -/
theorem split_chunks_newline_loss_cex :
    split_into_chunks "ab\n\n\ncd" 4 = ["ab\n", "cd"] ∧
      ¬ "ab\n" ++ "cd" = "ab\n\n\ncd" ∧
      ¬ "ab\n" ++ "\n" ++ "cd" = "ab\n\n\ncd" := by
  decide

/-- C5 (amended): whenever the chunking loop returns, the original text is
reconstructed by re-inserting at each split boundary the run of newline
characters that was stripped there (possibly more than one newline per
boundary): there are separator strings consisting solely of newlines whose
interleaving with the chunks equals the input, and every non-newline
character is preserved in order. -/
theorem split_chunks_reconstruct (fuel : Nat) (cs : List Char) (limit : Nat)
    (res : List (List Char)) (h : splitChunksFuel fuel cs limit = some res) :
    ∃ seps : List (List Char),
      (∀ s ∈ seps, ∀ ch ∈ s, ch = '\n') ∧ joinWithSeps res seps = cs := by
  induction fuel generalizing cs res with
  | zero => simp [splitChunksFuel] at h
  | succ f ih =>
    rw [splitChunksFuel] at h
    by_cases h1 : cs = []
    · subst h1
      rw [if_pos rfl] at h
      obtain rfl := Option.some.inj h
      exact ⟨[], by simp, rfl⟩
    · rw [if_neg h1] at h
      by_cases h2 : cs.length ≤ limit
      · rw [if_pos h2] at h
        obtain rfl := Option.some.inj h
        exact ⟨[], by simp, by simp [joinWithSeps]⟩
      · rw [if_neg h2] at h
        cases hmatch : splitChunksFuel f (splitStep cs limit).2 limit with
        | none => rw [hmatch] at h; simp at h
        | some rest =>
          rw [hmatch] at h
          obtain rfl := Option.some.inj h
          obtain ⟨seps, hsep, hjoin⟩ := ih (splitStep cs limit).2 rest hmatch
          refine ⟨(cs.drop (chunkSplitAt cs limit)).takeWhile (fun c => c = '\n') :: seps,
            ?_, ?_⟩
          · intro s hs
            rcases List.mem_cons.mp hs with rfl | hs2
            · intro ch hch
              simpa using List.mem_takeWhile_imp hch
            · exact hsep s hs2
          · show (splitStep cs limit).1 ++ _ ++ joinWithSeps rest seps = cs
            rw [hjoin]
            simp only [splitStep]
            rw [List.append_assoc, List.takeWhile_append_dropWhile, List.take_append_drop]

theorem split_chunks_reconstruct_witness :
    (splitChunksFuel 12 "ab\n\n\ncd".data 4 = some ["ab\n".data, "cd".data]) ∧
      ∃ seps : List (List Char),
        (∀ s ∈ seps, ∀ ch ∈ s, ch = '\n') ∧
          joinWithSeps ["ab\n".data, "cd".data] seps = "ab\n\n\ncd".data :=
  ⟨by decide, split_chunks_reconstruct 12 "ab\n\n\ncd".data 4 _ (by decide)⟩

/-- C6 (counterexample): at remainder `"a"` with `limit = 0` (remainder
non-empty and longer than the limit) the loop body leaves the remainder
unchanged — its length is not reduced — and consequently the loop never
terminates: `splitChunksFuel` yields `none` for every fuel bound. -/
theorem split_chunks_no_progress_cex :
    SplitDivergesOnAZero ∧ (splitStep ['a'] 0).2 = ['a'] ∧
      ¬ (splitStep ['a'] 0).2.length < (['a'] : List Char).length := by
  refine ⟨?_, by decide, by decide⟩
  intro fuel
  induction fuel with
  | zero => rfl
  | succ f ih =>
    rw [splitChunksFuel]
    rw [if_neg (by decide), if_neg (by decide)]
    rw [show (splitStep ['a'] 0).2 = ['a'] from by decide, ih]

/-- C6 (amended): for every positive limit `split_into_chunks` terminates on
every text: each loop iteration on a remainder longer than the limit
strictly reduces the remainder's length, so fuel `text.length + 1` always
suffices. -/
theorem split_chunks_terminates_pos_limit (text : String) (limit : Nat) (h : 1 ≤ limit) :
    (∀ rem : List Char, limit < rem.length → (splitStep rem limit).2.length < rem.length) ∧
      (splitChunksFuel (text.length + 1) text.data limit).isSome = true := by
  refine ⟨fun rem hrem => splitStep_progress limit h rem hrem, ?_⟩
  exact splitChunksFuel_some limit h (text.length + 1) text.data (Nat.lt_succ_self _)

theorem split_chunks_terminates_pos_limit_witness :
    (1 ≤ 3) ∧ (splitChunksFuel ("abcdefgh".length + 1) "abcdefgh".data 3).isSome = true :=
  ⟨by decide, (split_chunks_terminates_pos_limit "abcdefgh" 3 (by decide)).2⟩

/-! ## _flatten_markdown_tables (`src/bot/agents.py`)

The scanner below is placed after the theorems above only because it needs
no further support lemmas; every declaration from here on is again a plain
definition of the source code, followed by its theorems. -/

/-- Python `s.split(sep)` for a single-character separator. -/
def splitOnChar (sep : Char) : List Char → List (List Char)
  | [] => [[]]
  | c :: rest =>
    let r := splitOnChar sep rest
    if c = sep then [] :: r
    else
      match r with
      | [] => [[c]]
      | l :: ls => (c :: l) :: ls

/-- `is_table_line`: the stripped line contains `'|'` and either starts with
`'|'` or contains at least two `'|'`. -/
def is_table_line (line : List Char) : Bool :=
  let s := stripWs line
  s.contains '|' &&
    (['|'].isPrefixOf s || 2 ≤ (s.filter (fun c => c = '|')).length)

/-- One cell of the alignment-separator pattern: `:?-+:?`.  Returns the rest
of the input on success. -/
def parseSepCell (cs : List Char) : Option (List Char) :=
  let cs1 := match cs with | ':' :: r => r | _ => cs
  match cs1 with
  | '-' :: r =>
    let r2 := r.dropWhile (fun c => c = '-')
    some (match r2 with | ':' :: r3 => r3 | _ => r2)
  | _ => none

/-- Loop of the separator matcher: cells separated by `ws | ws`, an optional
trailing pipe, at least two cells in total (the regex
`^\s*\|?\s*(?::?-+:?\s*\|\s*)+(?::?-+:?)\s*\|?\s*$` requires one cell inside
the repeated group — which also contains a pipe — plus the final cell). -/
def sepLoop : Nat → Nat → List Char → Bool
  | 0, _, _ => false
  | fuel + 1, ncells, cs =>
    match parseSepCell cs with
    | none => false
    | some r =>
      match r.dropWhile isWsChar with
      | [] => 2 ≤ ncells + 1
      | '|' :: r2 =>
        let r3 := r2.dropWhile isWsChar
        if r3 = [] then 2 ≤ ncells + 1
        else sepLoop fuel (ncells + 1) r3
      | _ => false

/-- `sep_pattern.match(l.strip())`: full match of the alignment-separator
regex against the stripped line. -/
def sepMatch (line : List Char) : Bool :=
  let s0 := line.dropWhile isWsChar
  let s1 := match s0 with | '|' :: r => r | _ => s0
  let s2 := s1.dropWhile isWsChar
  sepLoop (s2.length + 1) 0 s2

/-- `split_cells`: strip, drop one leading and one trailing pipe, split on
`'|'`, strip each cell. -/
def split_cells (raw : List Char) : List (List Char) :=
  let s := stripWs raw
  let s1 := match s with | '|' :: r => r | _ => s
  let s2 := if s1.getLast? = some '|' then s1.dropLast else s1
  (splitOnChar '|' s2).map stripWs

/-- `re.sub(r"\s+", " ", h)`: collapse every whitespace run to one space
(each maximal run is replaced by a single space). -/
def collapseWs : List Char → List Char
  | [] => []
  | [c] => if isWsChar c then [' '] else [c]
  | c :: d :: rest =>
    if isWsChar c then
      if isWsChar d then collapseWs (d :: rest)
      else ' ' :: collapseWs (d :: rest)
    else c :: collapseWs (d :: rest)

/-- Python `str.strip(': ')`. -/
def stripColonSpace (l : List Char) : List Char :=
  ((l.dropWhile fun c => c = ':' || c = ' ').reverse.dropWhile
    fun c => c = ':' || c = ' ').reverse

/-- The `pairs` loop over `zip(header, cells)`. -/
def tablePairs : List (List Char) → List (List Char) → List (List Char)
  | h :: hs, v :: vs =>
    (if ¬ stripColonSpace (collapseWs h) = [] && ¬ collapseWs v = [] then
        [stripColonSpace (collapseWs h) ++ ": ".data ++ collapseWs v]
      else if ¬ collapseWs v = [] then [collapseWs v]
      else []) ++ tablePairs hs vs
  | _, _ => []

/-- Collect the contiguous block of table lines at the head of the list. -/
def takeTableBlock : List (List Char) → List (List Char) × List (List Char)
  | [] => ([], [])
  | l :: rest =>
    if is_table_line l then
      (l :: (takeTableBlock rest).1, (takeTableBlock rest).2)
    else ([], l :: rest)

/-- Emit the replacement lines for one table block: drop separator lines,
take the first remaining line as header, emit one bullet per data row
(surrounded by blank lines), falling back to the raw non-separator lines
when there is no data row. -/
def emitTable (block : List (List Char)) : List (List Char) :=
  let cleaned := block.filter fun l => ! sepMatch (stripWs l)
  match cleaned with
  | [] => []
  | hdr :: rows =>
    if rows.isEmpty then cleaned
    else
      [[]] ++
        (rows.map fun r =>
          if ¬ split_cells hdr = [] && (split_cells hdr).length = (split_cells r).length then
            "- ".data ++ List.intercalate "; ".data (tablePairs (split_cells hdr) (split_cells r))
          else
            "- ".data ++
              List.intercalate " — ".data
                (((split_cells r).map stripWs).filter fun c => ¬ c = [])) ++
        [[]]

/-- The top-to-bottom scan of `_flatten_markdown_tables`; each iteration
consumes at least one line, so fuel `number of lines + 1` suffices. -/
def flattenLoopFuel : Nat → List (List Char) → List (List Char)
  | 0, ls => ls
  | _ + 1, [] => []
  | fuel + 1, l :: rest =>
    if is_table_line l then
      emitTable (takeTableBlock (l :: rest)).1 ++
        flattenLoopFuel fuel (takeTableBlock (l :: rest)).2
    else l :: flattenLoopFuel fuel rest

def flatten_markdown_tables (content : List Char) : List Char :=
  joinNl (flattenLoopFuel ((splitOnNl content).length + 1) (splitOnNl content))

def flatten_markdown_tablesS (content : String) : String :=
  String.mk (flatten_markdown_tables content.data)

/-- C2 (counterexample): the two-line input `"A | B"` / `"1 | 2"` (no leading
or trailing pipes) is not recognised as a table — each line has a single
`'|'` and does not start with one, so `is_table_line` is false — and the
flattener returns it unchanged, producing no bullet at all. -/
theorem flatten_table_unpiped_cex :
    flatten_markdown_tablesS "A | B\n1 | 2" = "A | B\n1 | 2" ∧
      containsSub "- A: 1; B: 2".data (flatten_markdown_tables "A | B\n1 | 2".data) = false ∧
      is_table_line "A | B".data = false := by
  decide

/-- C2 (amended): for a two-column pipe table written with leading and
trailing pipes — header row `"| A | B |"` and data row `"| 1 | 2 |"` — the
flattener produces exactly one bullet line `"- A: 1; B: 2"`, surrounded by
one leading and one trailing blank line. -/
theorem flatten_table_piped :
    flatten_markdown_tablesS "| A | B |\n| 1 | 2 |" = "\n- A: 1; B: 2\n" ∧
      splitOnNl (flatten_markdown_tables "| A | B |\n| 1 | 2 |".data) =
        [[], "- A: 1; B: 2".data, []] := by
  decide

/-- Validation of the flattener on further shapes: an alignment-separator row
is discarded, and a row whose cell count mismatches the header is joined
with em-dashes. -/
theorem flatten_table_more_shapes :
    flatten_markdown_tablesS "| A | B |\n| --- | --- |\n| 1 | 2 |" = "\n- A: 1; B: 2\n" ∧
      flatten_markdown_tablesS "| A | B |\n| 1 | 2 | 3 |" = "\n- 1 — 2 — 3\n" ∧
      flatten_markdown_tablesS "x\n| A | B |\ny" = "x\n| A | B |\ny" := by
  decide

/-! ## Generic substitution scanner

Models Python `re.sub` for the concrete patterns below: scan left to right,
attempt a match at each position, emit the replacement and resume after the
match on success, keep the character and advance by one on failure.  Every
pattern used here matches at least one character, so fuel `length + 1`
always suffices. -/

def scanSub (tryRepl : List Char → Option (List Char × List Char)) :
    Nat → List Char → List Char
  | 0, cs => cs
  | _ + 1, [] => []
  | fuel + 1, c :: rest =>
    match tryRepl (c :: rest) with
    | some (rep, r) => rep ++ scanSub tryRepl fuel r
    | none => c :: scanSub tryRepl fuel rest

/-! ## clean_references (`src/bot/agents.py`) -/

/-- A match of `\[(\d+)\]` at the head of the input: bracket, one or more
digits, bracket.  Replacement is empty. -/
def tryBracketNum (cs : List Char) : Option (List Char × List Char) :=
  match cs with
  | '[' :: rest =>
    if rest.takeWhile isDigitChar = [] then none
    else
      match rest.dropWhile isDigitChar with
      | ']' :: r => some ([], r)
      | _ => none
  | _ => none

/-- `re.sub(r'\[(\d+)\]', '', content)`. -/
def removeBracketNums (cs : List Char) : List Char :=
  scanSub tryBracketNum (cs.length + 1) cs

/-- `re.sub(r'(\[\d+\])+', '', content)`: a maximal run of bracketed numbers
is removed; since the replacement is empty, removing each bracketed group
singly yields exactly the same string, so this pass reuses the same
scanner. -/
def removeBracketNumRuns (cs : List Char) : List Char :=
  removeBracketNums cs

/-- A match of `\s+([.,!?])`: a maximal whitespace run directly followed by
one of `. , ! ?` (shorter runs cannot match, as the class contains no
whitespace); replaced by the punctuation character alone. -/
def tryWsPunct (cs : List Char) : Option (List Char × List Char) :=
  match cs with
  | c :: _ =>
    if isWsChar c then
      match cs.dropWhile isWsChar with
      | p :: r2 =>
        if p = '.' || p = ',' || p = '!' || p = '?' then some ([p], r2) else none
      | [] => none
    else none
  | [] => none

def removeWsBeforePunct (cs : List Char) : List Char :=
  scanSub tryWsPunct (cs.length + 1) cs

def clean_references (content : List Char) : List Char :=
  stripWs (removeWsBeforePunct (collapseWs (removeBracketNumRuns (removeBracketNums content))))

/-! ## parse_perplexity_citations (`src/bot/agents.py`) -/

/-- The literal part `Sources?:?` of the sources-section pattern: `Source`,
optional `s`, optional `:` (both greedy; declining either can never help,
since `\s*\n` matches neither `s` nor `:`). -/
def matchSourcesWord (cs : List Char) : Option (List Char) :=
  match cs with
  | 'S' :: 'o' :: 'u' :: 'r' :: 'c' :: 'e' :: r =>
    let r1 := match r with | 's' :: r2 => r2 | _ => r
    some (match r1 with | ':' :: r3 => r3 | _ => r1)
  | _ => none

/-- One line of the sources group, `\d+\..*\n?`: digits, a dot, the rest of
the line, and greedily the newline when present.  Returns the matched
segment and the rest. -/
def parseNumLine (cs : List Char) : Option (List Char × List Char) :=
  if cs.takeWhile isDigitChar = [] then none
  else
    match cs.dropWhile isDigitChar with
    | '.' :: r =>
      let body := r.takeWhile fun c => ¬ c = '\n'
      match r.dropWhile (fun c => ¬ c = '\n') with
      | '\n' :: r2 => some (cs.takeWhile isDigitChar ++ '.' :: body ++ ['\n'], r2)
      | _ => some (cs.takeWhile isDigitChar ++ '.' :: body, [])
    | _ => none

/-- The greedy `(?:\d+\..*\n?)+` repetition (nothing follows it in the
pattern, so maximal repetition needs no backtracking). -/
def parseNumLinesLoop : Nat → List Char → List Char × List Char
  | 0, cs => ([], cs)
  | fuel + 1, cs =>
    match parseNumLine cs with
    | none => ([], cs)
    | some (seg, r) =>
      ((seg ++ (parseNumLinesLoop fuel r).1), (parseNumLinesLoop fuel r).2)

/-- The `\s*\n` part followed by the group: the `\n` consumed is some newline
inside the leading whitespace run, tried from the longest `\s*` backwards
(greedy with backtracking); the first candidate after which at least one
numbered line parses wins.  Returns group 1 of the pattern. -/
def trySourcesTail (cs : List Char) : Option (List Char) :=
  let run := cs.takeWhile isWsChar
  let cands := ((List.range run.length).filter fun i => run.getD i ' ' = '\n').reverse
  tryNlCandidates cands cs
where
  tryNlCandidates : List Nat → List Char → Option (List Char)
    | [], _ => none
    | i :: is, cs =>
      match parseNumLine (cs.drop (i + 1)) with
      | some _ => some (parseNumLinesLoop (cs.length + 1) (cs.drop (i + 1))).1
      | none => tryNlCandidates is cs

/-- `re.search` for `Sources?:?\s*\n((?:\d+\..*\n?)+)`: leftmost start
position; returns `(prefix before the match, group 1)`. -/
def findSourcesLoop : List Char → List Char → Option (List Char × List Char)
  | _, [] => none
  | acc, c :: rest =>
    match (match matchSourcesWord (c :: rest) with
           | some afterWord => trySourcesTail afterWord
           | none => none) with
    | some group => some (acc.reverse, group)
    | none => findSourcesLoop (c :: acc) rest

/-- The optional URL group `(https?://\S+)?`: returns the captured URL or
`[]` when absent (`\S+` requires at least one non-whitespace character). -/
def matchUrl (cs : List Char) : List Char :=
  match cs with
  | 'h' :: 't' :: 't' :: 'p' :: 's' :: ':' :: '/' :: '/' :: r =>
    if r.takeWhile (fun c => ¬ isWsChar c) = [] then []
    else "https://".data ++ r.takeWhile (fun c => ¬ isWsChar c)
  | 'h' :: 't' :: 't' :: 'p' :: ':' :: '/' :: '/' :: r =>
    if r.takeWhile (fun c => ¬ isWsChar c) = [] then []
    else "http://".data ++ r.takeWhile (fun c => ¬ isWsChar c)
  | _ => []

/-- One source line against `(\d+)\.\s*(.*?)(?:\s*[-–]\s*)?(https?://\S+)?`.
Everything after the lazy `(.*?)` is optional, so the lazy group always
matches empty: group 2 (the title) is always the empty string, and the URL
is captured only when it follows the number directly (after the greedy
`\s*` and an optional dash with surrounding whitespace).  Returns
`(number, title, url)` with `[]` for an absent URL. -/
def parsePerplexitySourceLine (line : List Char) :
    Option (List Char × List Char × List Char) :=
  if line.takeWhile isDigitChar = [] then none
  else
    match line.dropWhile isDigitChar with
    | '.' :: r =>
      let r1 := r.dropWhile isWsChar
      let r2 := match r1 with
        | '-' :: rr => rr.dropWhile isWsChar
        | '–' :: rr => rr.dropWhile isWsChar
        | _ => r1
      some (line.takeWhile isDigitChar, [], matchUrl r2)
    | _ => none

/-- Lookup in an index→(title, url) mapping whose most recent binding comes
first (Python dict insertion with overwriting). -/
def lookupSource : List (List Char × List Char × List Char) → List Char →
    Option (List Char × List Char)
  | [], _ => none
  | (k, t, u) :: rest, key => if k = key then some (t, u) else lookupSource rest key

/-- `replace_inline_citation`: split the group on commas, strip each piece,
resolve against the sources mapping, join the resolved markdown links with
single spaces; keep the original bracketed text when nothing resolves. -/
def replaceInlineCitation (sources : List (List Char × List Char × List Char))
    (group : List Char) : List Char :=
  let links := (splitOnChar ',' group).filterMap fun cite =>
    match lookupSource sources (stripWs cite) with
    | some (t, u) => some ('[' :: t ++ ']' :: '(' :: u ++ [')'])
    | none => none
  if links = [] then '[' :: group ++ [']'] else List.intercalate [' '] links

/-- A match of `\[([0-9,\s]+)\]`: bracket, a maximal non-empty run of
digits, commas and whitespace, closing bracket. -/
def tryInlineCite (sources : List (List Char × List Char × List Char))
    (cs : List Char) : Option (List Char × List Char) :=
  match cs with
  | '[' :: rest =>
    if rest.takeWhile (fun c => isDigitChar c || c = ',' || isWsChar c) = [] then none
    else
      match rest.dropWhile (fun c => isDigitChar c || c = ',' || isWsChar c) with
      | ']' :: r =>
        some (replaceInlineCitation sources
          (rest.takeWhile fun c => isDigitChar c || c = ',' || isWsChar c), r)
      | _ => none
  | _ => none

def parse_perplexity_citations (content : List Char) : List Char :=
  match findSourcesLoop [] content with
  | none => content
  | some (pre, group) =>
    let sources := (splitOnNl group).foldl (fun acc line =>
      match parsePerplexitySourceLine line with
      | some (n, t, u) =>
        (n, stripWs (if t = [] then "Source".data else t),
          stripWs (if u = [] then "#".data else u)) :: acc
      | none => acc) []
    scanSub (tryInlineCite sources) ((stripWs pre).length + 1) (stripWs pre)

/-! ## extract_and_format_citations (`src/bot/agents.py`) -/

/-- A line that starts the references section: contains `references:`,
`sources:` or `citations:` case-insensitively. -/
def refMarkerLine (line : List Char) : Bool :=
  containsSub "references:".data (toLowerL line) ||
    containsSub "sources:".data (toLowerL line) ||
    containsSub "citations:".data (toLowerL line)

/-- The numbering alternative `(?:\[(\d+)\]|(\d+)\.\s*)` at the start of a
reference line; returns `(digits, rest)`. -/
def parseRefNum (line : List Char) : Option (List Char × List Char) :=
  match line with
  | '[' :: r =>
    if r.takeWhile isDigitChar = [] then none
    else
      match r.dropWhile isDigitChar with
      | ']' :: r2 => some (r.takeWhile isDigitChar, r2)
      | _ => none
  | _ =>
    if line.takeWhile isDigitChar = [] then none
    else
      match line.dropWhile isDigitChar with
      | '.' :: r2 => some (line.takeWhile isDigitChar, r2.dropWhile isWsChar)
      | _ => none

/-- `\s*[-–]\s*(https?://\S+)` at the start of the input: optional
whitespace, a dash, optional whitespace, a required URL. -/
def tryDashUrlAt (cs : List Char) : Option (List Char) :=
  match cs.dropWhile isWsChar with
  | '-' :: r =>
    if matchUrl (r.dropWhile isWsChar) = [] then none
    else some (matchUrl (r.dropWhile isWsChar))
  | '–' :: r =>
    if matchUrl (r.dropWhile isWsChar) = [] then none
    else some (matchUrl (r.dropWhile isWsChar))
  | _ => none

/-- The lazy search of `(.*?)\s*[-–]\s*(https?://\S+)`: the earliest
position at which the dash-and-URL suffix matches wins; returns
`(title, url)` where the title is everything before that position. -/
def findDashUrl : List Char → Option (List Char × List Char)
  | [] => none
  | c :: rest =>
    match tryDashUrlAt (c :: rest) with
    | some u => some ([], u)
    | none =>
      match findDashUrl rest with
      | some (t, u) => some (c :: t, u)
      | none => none

/-- One reference line against
`(?:\[(\d+)\]|(\d+)\.\s*)\s*(.*?)\s*[-–]\s*(https?://\S+)`:
returns `(number, title, url)`. -/
def parseRefLine (line : List Char) : Option (List Char × List Char × List Char) :=
  match parseRefNum line with
  | none => none
  | some (num, rest) =>
    match findDashUrl (rest.dropWhile isWsChar) with
    | none => none
    | some (title, url) => some (num, title, url)

/-- The line scan of `extract_and_format_citations`: returns the retained
content lines and the parsed references, most recent binding first. -/
def extractScan : List (List Char) → Bool →
    List (List Char) × List (List Char × List Char × List Char)
  | [], _ => ([], [])
  | line :: rest, started =>
    if refMarkerLine line then extractScan rest true
    else if started then
      match parseRefLine line with
      | some (n, t, u) =>
        ((extractScan rest true).1, (extractScan rest true).2 ++ [(n, stripWs t, stripWs u)])
      | none => extractScan rest true
    else
      (line :: (extractScan rest started).1, (extractScan rest started).2)

/-- A match of `\[(\d+)\]` resolved through the references: a known index
becomes the markdown link `[title](url)`, an unknown one is kept as the
original text. -/
def tryCitationNum (refs : List (List Char × List Char × List Char))
    (cs : List Char) : Option (List Char × List Char) :=
  match cs with
  | '[' :: rest =>
    if rest.takeWhile isDigitChar = [] then none
    else
      match rest.dropWhile isDigitChar with
      | ']' :: r =>
        match lookupSource refs (rest.takeWhile isDigitChar) with
        | some (t, u) => some ('[' :: t ++ ']' :: '(' :: u ++ [')'], r)
        | none => some ('[' :: rest.takeWhile isDigitChar ++ [']'], r)
      | _ => none
  | _ => none

def extract_and_format_citations (content : List Char) : List Char :=
  scanSub (tryCitationNum (extractScan (splitOnNl content) false).2)
    ((joinNl (extractScan (splitOnNl content) false).1).length + 1)
    (joinNl (extractScan (splitOnNl content) false).1)

/-! ## The markdown-link rewrite of `format_response` -/

/-- A match of `\[([^\]]+)\]\(([^)]+)\)`, replaced by `title - url`. -/
def tryMdLink (cs : List Char) : Option (List Char × List Char) :=
  match cs with
  | '[' :: rest =>
    if rest.takeWhile (fun c => ¬ c = ']') = [] then none
    else
      match rest.dropWhile (fun c => ¬ c = ']') with
      | ']' :: '(' :: r2 =>
        if r2.takeWhile (fun c => ¬ c = ')') = [] then none
        else
          match r2.dropWhile (fun c => ¬ c = ')') with
          | ')' :: r3 =>
            some ((rest.takeWhile fun c => ¬ c = ']') ++ " - ".data ++
              (r2.takeWhile fun c => ¬ c = ')'), r3)
          | _ => none
      | _ => none
  | _ => none

def mdLinksToPlain (cs : List Char) : List Char :=
  scanSub tryMdLink (cs.length + 1) cs

/-- The citation/reference passes exactly as composed at the start of
`format_response`: table flattening, `clean_references`,
`parse_perplexity_citations`, `extract_and_format_citations`, then the
markdown-link-to-plain rewrite. -/
def citationPasses (content : List Char) : List Char :=
  mdLinksToPlain
    (extract_and_format_citations
      (parse_perplexity_citations
        (clean_references
          (flatten_markdown_tables content))))

/-- C1: evaluation of the composed citation/reference passes of
`format_response` at the input
`"[1] fact.\n\nSources:\n1. Title - http://x.com"`.  The composition yields
the EMPTY string — `clean_references` first deletes the `[1]` marker and
collapses all newlines, which puts `Sources:` in the middle of the single
remaining line, and `extract_and_format_citations` then discards that whole
line as a reference-section marker — so the source title and URL are lost
entirely, contradicting the claimed inline result.  The last two conjuncts
show the intended behaviour is produced by the trailing-block strategy
(`extract_and_format_citations` plus the link rewrite) on its own, so the
composed pipeline, not the claim, is at fault. -/
theorem citation_pipeline_destroys_content :
    String.mk (citationPasses "[1] fact.\n\nSources:\n1. Title - http://x.com".data) = "" ∧
      containsSub "Title - http://x.com".data
        (citationPasses "[1] fact.\n\nSources:\n1. Title - http://x.com".data) = false ∧
      containsSub "[1]".data
        (citationPasses "[1] fact.\n\nSources:\n1. Title - http://x.com".data) = false ∧
      String.mk (mdLinksToPlain (extract_and_format_citations
        "[1] fact.\n\nSources:\n1. Title - http://x.com".data)) =
        "Title - http://x.com fact.\n" ∧
      containsSub "Title - http://x.com".data
        (mdLinksToPlain (extract_and_format_citations
          "[1] fact.\n\nSources:\n1. Title - http://x.com".data)) = true := by
  decide

/-- Validation of the individual citation passes against the behaviour of
the Python source on the repository's own demo input: the grouped-citation
strategy resolves every index to the defaults `Source` and `#` (its lazy
title group always matches empty), while the trailing-block strategy
resolves titles and URLs properly. -/
theorem citation_passes_validation :
    String.mk (clean_references "[1] fact.\n\nSources:\n1. Title - http://x.com".data) =
      "fact. Sources: 1. Title - http://x.com" ∧
    String.mk (parse_perplexity_citations "This is a fact about startups [1] and another insight [2].\n\nSources:\n1. TechCrunch Article - https://techcrunch.com/example\n2. Harvard Business Review - https://hbr.org/example".data) =
      "This is a fact about startups [Source](#) and another insight [Source](#)." ∧
    String.mk (extract_and_format_citations "This is a fact about startups [1] and another insight [2].\n\nSources:\n1. TechCrunch Article - https://techcrunch.com/example\n2. Harvard Business Review - https://hbr.org/example".data) =
      "This is a fact about startups [TechCrunch Article](https://techcrunch.com/example) and another insight [Harvard Business Review](https://hbr.org/example).\n" := by
  decide

/-! ## The structural reformatter of `format_response` (`src/bot/agents.py`)

Each regex pass is translated as a scanner over the suffix at the current
position; passes with a lookbehind additionally carry the previous original
character. -/

/-- Variant of `scanSub` for patterns with a lookbehind: the scanner carries
the character of the original string immediately before the current
position, and a successful match reports the last original character it
consumed. -/
def scanSubPrev (tryRepl : Option Char → List Char → Option (List Char × Char × List Char)) :
    Nat → Option Char → List Char → List Char
  | 0, _, cs => cs
  | _ + 1, _, [] => []
  | fuel + 1, prev, c :: rest =>
    match tryRepl prev (c :: rest) with
    | some (rep, lastC, r) => rep ++ scanSubPrev tryRepl fuel (some lastC) r
    | none => c :: scanSubPrev tryRepl fuel (some c) rest

/-- A match of `(?<!\n)\s*###\s+` (replaced by `"\n\n### "`): the previous
character is not a newline, then any whitespace, exactly the three hashes,
then at least one whitespace character (all greedy; `#` is not whitespace,
so no backtracking arises). -/
def tryHeadingSpace (prev : Option Char) (cs : List Char) :
    Option (List Char × Char × List Char) :=
  if prev = some '\n' then none
  else
    match cs.dropWhile isWsChar with
    | '#' :: '#' :: '#' :: r =>
      if r.takeWhile isWsChar = [] then none
      else some ("\n\n### ".data, (r.takeWhile isWsChar).getLastD ' ', r.dropWhile isWsChar)
    | _ => none

/-- A match of `-{3,}|_{3,}` (replaced by a blank line): a maximal run of at
least three dashes or underscores. -/
def tryHr (cs : List Char) : Option (List Char × List Char) :=
  match cs with
  | '-' :: _ =>
    if 3 ≤ (cs.takeWhile fun c => c = '-').length then
      some ("\n\n".data, cs.dropWhile fun c => c = '-')
    else none
  | '_' :: _ =>
    if 3 ≤ (cs.takeWhile fun c => c = '_').length then
      some ("\n\n".data, cs.dropWhile fun c => c = '_')
    else none
  | _ => none

/-- `content.replace("—", "-").replace("–", "-")`. -/
def replaceDashes (cs : List Char) : List Char :=
  cs.map fun c => if c = '—' then '-' else if c = '–' then '-' else c

/-- A match of `(?:(?<=^)|(?<=[.!?:]))\s*-\s+` (replaced by `"\n- "`): at
the string start or after sentence punctuation or colon, whitespace, a
dash, then at least one whitespace character. -/
def tryBulletAfterPunct (prev : Option Char) (cs : List Char) :
    Option (List Char × Char × List Char) :=
  if (match prev with
      | none => true
      | some p => p = '.' || p = '!' || p = '?' || p = ':') then
    match cs.dropWhile isWsChar with
    | '-' :: r =>
      if r.takeWhile isWsChar = [] then none
      else some ("\n- ".data, (r.takeWhile isWsChar).getLastD ' ', r.dropWhile isWsChar)
    | _ => none
  else none

/-- A match of `:\s*-\s+` (replaced by `":\n\n- "`). -/
def tryColonBullet (cs : List Char) : Option (List Char × List Char) :=
  match cs with
  | ':' :: r =>
    match r.dropWhile isWsChar with
    | '-' :: r2 =>
      if r2.takeWhile isWsChar = [] then none
      else some (":\n\n- ".data, r2.dropWhile isWsChar)
    | _ => none
  | _ => none

/-- A match of `:(?!//)(?!\s*\n)\s*` (replaced by `":\n\n"`): a colon not
followed by `//` and whose following whitespace run contains no newline;
the run is consumed. -/
def tryColonSpace (cs : List Char) : Option (List Char × List Char) :=
  match cs with
  | ':' :: '/' :: '/' :: _ => none
  | ':' :: r =>
    if (r.takeWhile isWsChar).contains '\n' then none
    else some (":\n\n".data, r.dropWhile isWsChar)
  | _ => none

/-- A match of `\s-\s+(?=[A-Za-z(])` (replaced by `"\n- "`): one whitespace
character, a dash, at least one whitespace character, with the next —
unconsumed — character a letter or opening parenthesis. -/
def tryInlineBullet (cs : List Char) : Option (List Char × List Char) :=
  match cs with
  | c :: '-' :: r =>
    if isWsChar c then
      if r.takeWhile isWsChar = [] then none
      else
        match r.dropWhile isWsChar with
        | c2 :: _ =>
          if c2.isAlpha || c2 = '(' then some ("\n- ".data, r.dropWhile isWsChar) else none
        | [] => none
    else none
  | _ => none

/-- `content.replace("*", "").replace("_", "").replace("`", "")` (the third
removed character is the backtick, written by code point). -/
def stripEmphasis (cs : List Char) : List Char :=
  cs.filter fun c => ¬ (c = '*' || c = '_' || c = Char.ofNat 96)

/-- `re.match(r"^\s*#{1,6}\s+(.*)$", raw)`, returning the stripped title:
leading whitespace, one to six hashes (seven or more can never match, since
every shorter split leaves a hash where `\s+` is required), whitespace, and
the rest of the line. -/
def parseHeadingLine (raw : List Char) : Option (List Char) :=
  let w := raw.dropWhile isWsChar
  if 1 ≤ (w.takeWhile fun c => c = '#').length ∧ (w.takeWhile fun c => c = '#').length ≤ 6 then
    match w.dropWhile (fun c => c = '#') with
    | c :: r => if isWsChar c then some (stripWs (c :: r)) else none
    | [] => none
  else none

/-- The heading-promotion loop: a heading line becomes its bare title
surrounded by blank lines (inserting the leading blank only when the
previous emitted line is not already blank); other lines pass through. -/
def headingStep (lines : List (List Char)) (raw : List Char) : List (List Char) :=
  match parseHeadingLine raw with
  | some title =>
    (if ¬ lines = [] ∧ ¬ lines.getLast? = some [] then lines ++ [[]] else lines) ++ [title, []]
  | none => lines ++ [raw]

/-- `re.match(r"^\d+\.\s", line)`. -/
def startsNumDot (line : List Char) : Bool :=
  !(line.takeWhile isDigitChar).isEmpty &&
    (match line.dropWhile isDigitChar with
     | '.' :: c :: _ => isWsChar c
     | _ => false)

/-- `re.sub(r"^(\d+\.\s*)-\s*", r"\1", line)`: drop a dash (and following
whitespace) that directly follows a numbered prefix. -/
def stripDoubleNum (line : List Char) : List Char :=
  if (line.takeWhile isDigitChar) = [] then line
  else
    match line.dropWhile isDigitChar with
    | '.' :: r =>
      match r.dropWhile isWsChar with
      | '-' :: r2 =>
        line.takeWhile isDigitChar ++ '.' :: r.takeWhile isWsChar ++ r2.dropWhile isWsChar
      | _ => line
    | _ => line

/-- `line.startswith(("- ", "* ", "• "))`. -/
def isBulletStart (line : List Char) : Bool :=
  "- ".data.isPrefixOf line || "* ".data.isPrefixOf line || "• ".data.isPrefixOf line

/-- `line.lstrip('-*• ').strip()`. -/
def bulletContent (line : List Char) : List Char :=
  stripWs (line.dropWhile fun c => c = '-' || c = '*' || c = '•' || c = ' ')

def prevPunct (prev : Option Char) : Bool :=
  match prev with
  | some p => p = '.' || p = '!' || p = '?'
  | none => false

/-- The lookahead `(?=(?:\(|\"|[A-Z0-9]))` of the sentence-reflow split,
checked after the whitespace run. -/
def reflowNextOk (cs : List Char) : Bool :=
  match cs.dropWhile isWsChar with
  | c :: _ => c = '(' || c = '"' || c.isUpper || c.isDigit
  | [] => false

/-- `re.split(r"(?<=[.!?])\s+(?=(?:\(|\"|[A-Z0-9]))", line)`: a delimiter is
a maximal whitespace run preceded by sentence punctuation and followed by a
capital letter, digit, parenthesis or quote. -/
def reflowLoop : Nat → Option Char → List Char → List Char → List (List Char)
  | 0, _, acc, cs => [acc.reverse ++ cs]
  | _ + 1, _, acc, [] => [acc.reverse]
  | fuel + 1, prev, acc, c :: rest =>
    if isWsChar c && prevPunct prev && reflowNextOk (c :: rest) then
      acc.reverse ::
        reflowLoop fuel (some (((c :: rest).takeWhile isWsChar).getLastD ' ')) []
          ((c :: rest).dropWhile isWsChar)
    else reflowLoop fuel (some c) (c :: acc) rest

def reflowSplit (line : List Char) : List (List Char) :=
  reflowLoop (line.length + 1) none [] line

/-- The main per-line loop of `format_response`: blank-line handling, the
160-character sentence reflow, question numbering (first seven numbered,
the rest bulleted), bullet normalisation, and plain passthrough.  State:
remaining lines, question count, inside-bullet-block flag, output so far. -/
def mainLoopGo : List (List Char) → Nat → Bool → List (List Char) → List (List Char)
  | [], _, _, acc => acc
  | raw :: rest, qc, inb, acc =>
    if stripWs raw = [] then
      mainLoopGo rest qc false
        (if ¬ acc = [] ∧ ¬ acc.getLast? = some [] then acc ++ [[]] else acc)
    else
      if ¬ "- ".data.isPrefixOf (stripWs raw) = true ∧ 160 < (stripWs raw).length then
        mainLoopGo rest qc false
          (acc ++ ((reflowSplit (stripWs raw)).filter fun p => ¬ p = []).map stripWs ++ [[]])
      else
        if (stripDoubleNum (stripWs raw)).getLast? = some '?' then
          mainLoopGo rest (qc + 1) false (acc ++
            [if startsNumDot (stripDoubleNum (stripWs raw)) then stripDoubleNum (stripWs raw)
             else
               (if qc + 1 ≤ 7 then (toString (qc + 1)).data ++ ". ".data else "- ".data) ++
                 stripDoubleNum (stripWs raw)])
        else
          if isBulletStart (stripDoubleNum (stripWs raw)) then
            mainLoopGo rest qc true
              ((if ¬ inb = true ∧ ¬ acc = [] ∧ ¬ acc.getLast? = some [] then acc ++ [[]]
                else acc) ++ ["- ".data ++ bulletContent (stripDoubleNum (stripWs raw))])
          else mainLoopGo rest qc false (acc ++ [stripDoubleNum (stripWs raw)])

/-- The paragraph-spacing pass: after a sentence-terminated line that is
neither a bullet nor numbered, insert a blank line when the next line is
non-empty. -/
def spacingLoop : List (List Char) → List (List Char)
  | [] => []
  | l :: rest =>
    if ¬ l = [] ∧ ¬ "- ".data.isPrefixOf l = true ∧ ¬ startsNumDot l = true ∧
        (l.getLast? = some '.' ∨ l.getLast? = some '?' ∨ l.getLast? = some '!') ∧
        ¬ rest.headD [] = [] ∧ ¬ stripWs (rest.headD []) = [] then
      l :: [] :: spacingLoop rest
    else l :: spacingLoop rest

/-- A match of `\n{3,}` (replaced by exactly two newlines). -/
def tryNlRun (cs : List Char) : Option (List Char × List Char) :=
  match cs with
  | '\n' :: _ =>
    if 3 ≤ (cs.takeWhile fun c => c = '\n').length then
      some ("\n\n".data, cs.dropWhile fun c => c = '\n')
    else none
  | _ => none

def collapseNlRuns (cs : List Char) : List Char :=
  scanSub tryNlRun (cs.length + 1) cs

/-- Everything `format_response` does before the closing-line check: the
citation passes, the regex reformatting chain, heading promotion, the main
per-line loop, the spacing pass, blank-line collapsing and trimming. -/
def preClosingText (content : List Char) : List Char :=
  let c0 := citationPasses content
  let c1 := scanSubPrev tryHeadingSpace (c0.length + 1) none c0
  let c2 := scanSub tryHr (c1.length + 1) c1
  let c3 := replaceDashes c2
  let c4 := scanSubPrev tryBulletAfterPunct (c3.length + 1) none c3
  let c5 := scanSub tryColonBullet (c4.length + 1) c4
  let c6 := scanSub tryColonSpace (c5.length + 1) c5
  let c7 := scanSub tryInlineBullet (c6.length + 1) c6
  let c8 := stripEmphasis c7
  let lines := (splitOnNl (stripWs c8)).foldl headingStep []
  let spaced := spacingLoop (mainLoopGo lines 0 false [])
  stripWs (collapseNlRuns (joinNl spaced))

/-- The closing call-to-action appended when neither `next step` nor
`action item` occurs (case-insensitively) in the processed text. -/
def closingText : List Char :=
  "\n\nNext Step: Reflect on the above questions and share your thoughts on the most challenging one.".data

def headerEmoji (agent_type : String) : List Char :=
  if agent_type = "pm" then "🚀".data else "💰".data

def format_response (content : String) (agent_type : String) : String :=
  String.mk (headerEmoji agent_type ++ " Response\n\n".data ++
    (if containsSub "next step".data (toLowerL (preClosingText content.data)) = true ∨
        containsSub "action item".data (toLowerL (preClosingText content.data)) = true then
      preClosingText content.data
    else preClosingText content.data ++ closingText))

/-- C9 (counterexample): the input `"next\nstep"` contains no
case-insensitive occurrence of `next step` (the words are separated by a
newline, not a space) nor of `action item`, yet `format_response` appends no
closing call-to-action: the pipeline itself collapses the newline to a
space, so the *processed* text does contain `next step` and the closing
check — which runs on the processed text, not the input — skips the
append.  The output ends in `step`. -/
theorem format_response_no_closing_cex :
    containsSub "next step".data (toLowerL "next\nstep".data) = false ∧
      containsSub "action item".data (toLowerL "next\nstep".data) = false ∧
      format_response "next\nstep" "pm" = "🚀 Response\n\nnext step" ∧
      containsSub "Next Step: Reflect".data (format_response "next\nstep" "pm").data = false := by
  decide

/-- C9 (amended): the closing-line decision is made on the processed text.
For every input and persona: when the processed text contains neither
`next step` nor `action item` (case-insensitively), the output ends with
the non-empty closing call-to-action sentence; when the processed text does
contain `next step`, the output is exactly the header followed by the
processed text, with no closing line appended. -/
theorem format_response_closing_amended (content agent_type : String) :
    ((containsSub "next step".data (toLowerL (preClosingText content.data)) = false ∧
        containsSub "action item".data (toLowerL (preClosingText content.data)) = false) →
      ¬ closingText = [] ∧ closingText <:+ (format_response content agent_type).data) ∧
    (containsSub "next step".data (toLowerL (preClosingText content.data)) = true →
      (format_response content agent_type).data =
        headerEmoji agent_type ++ " Response\n\n".data ++ preClosingText content.data) := by
  constructor
  · rintro ⟨h1, h2⟩
    refine ⟨by decide, ?_⟩
    show closingText <:+ (String.mk _).data
    simp only [format_response, h1, h2]
    rw [if_neg (by simp)]
    show closingText <:+
      headerEmoji agent_type ++ " Response\n\n".data ++
        (preClosingText content.data ++ closingText)
    rw [← List.append_assoc]
    exact List.suffix_append _ _
  · intro h
    simp only [format_response]
    rw [if_pos (Or.inl h)]

theorem format_response_closing_amended_witness :
    (containsSub "next step".data (toLowerL (preClosingText "hello".data)) = false ∧
        containsSub "action item".data (toLowerL (preClosingText "hello".data)) = false) ∧
      (¬ closingText = [] ∧ closingText <:+ (format_response "hello" "pm").data) :=
  ⟨by decide, (format_response_closing_amended "hello" "pm").1 (by decide)⟩

/-- Validation of the full `format_response` embedding against the
behaviour of the Python source on richer inputs: sentence reflow of a long
collapsed line, bullet normalisation, question numbering, heading
promotion, horizontal-rule removal, and a cited input whose body is
destroyed by the citation passes (only the header and appended closing
remain). -/
theorem format_response_validation :
    format_response "\nWhat problem are you solving?\nWho is your target user?\nTalk about the Jobs-to-be-Done framework.\nHere are some key points:\n- First point about growth\n- Second point about retention\nWhat is your CAC to LTV ratio?\n" "pm" =
      "🚀 Response\n\nWhat problem are you solving? Who is your target user? Talk about the Jobs-to-be-Done framework. Here are some key points:\n\n- First point about growth\n1. - Second point about retention What is your CAC to LTV ratio?\n\nNext Step: Reflect on the above questions and share your thoughts on the most challenging one." ∧
    format_response "Heading stuff\n### Plan ###\nitem one --- done\nA question?" "vc" =
      "💰 Response\n\nHeading stuff\n\nPlan\n\nitem one\n\n1. done A question?\n\nNext Step: Reflect on the above questions and share your thoughts on the most challenging one." ∧
    format_response "This is a fact about startups [1] and another insight [2].\n\nSources:\n1. TechCrunch Article - https://techcrunch.com/example\n2. Harvard Business Review - https://hbr.org/example" "pm" =
      "🚀 Response\n\n\n\nNext Step: Reflect on the above questions and share your thoughts on the most challenging one." := by
  decide
